import Mathlib

/-!
Verification development for the `go/vt/sqlannotation` package of the
vitess repository (file `go/vt/sqlannotation/sqlannotation.go`).

Go strings are modelled as `List Char` (each `Char` one rune; every string
constant of the package is ASCII, for which byte positions and rune
positions of occurrences coincide).  Go byte slices (`[]byte`) are
modelled as `List Nat`, with the byte range `< 256` carried as a
hypothesis where it matters.  The process-wide statistics counter
mutated by `AnnotateIfDML` is modelled by explicit state passing.
-/

/-- Models `strings.Index(source, pat)` from the Go standard library:
the index of the leftmost occurrence of `pat` in `source`, `none`
standing for Go's `-1`. -/
def goIndex : List Char → List Char → Option Nat
  | [], pat => if pat.isPrefixOf ([] : List Char) then some 0 else none
  | c :: t, pat =>
    if pat.isPrefixOf (c :: t) then some 0
    else (goIndex t pat).map (· + 1)

/-- Models `strings.IndexFunc(s, p)` from the Go standard library:
the index of the first rune satisfying `p`, `none` standing for `-1`. -/
def indexFunc : List Char → (Char → Bool) → Option Nat
  | [], _ => none
  | c :: t, p => if p c then some 0 else (indexFunc t p).map (· + 1)

/-- Models `unicode.IsSpace` from the Go standard library (Unicode
White_Space property: the Latin-1 fast path plus the non-Latin-1 ranges
of Go's `unicode.White_Space` table). -/
def unicodeIsSpace (c : Char) : Bool :=
  let n := c.toNat
  (9 ≤ n && n ≤ 13) || n == 32 || n == 133 || n == 160 ||
    n == 0x1680 || (0x2000 ≤ n && n ≤ 0x200A) || n == 0x2028 || n == 0x2029 ||
    n == 0x202F || n == 0x205F || n == 0x3000

/-- Models `unicode.SimpleFold`, restricted to the orbits reachable when
one comparand is lower-case ASCII (which is the only way this package
ever invokes case folding, through `strings.EqualFold` against the
literals `insert`, `update`, `delete`): the two exceptional fold orbits
that touch ASCII, K/k/KELVIN SIGN and S/s/LATIN SMALL LETTER LONG S, and
the plain ASCII case swap.  On runes outside these orbits it is the
identity; no such rune can change the result of the `equalFold` calls
made by this package. -/
def simpleFold (r : Char) : Char :=
  if r = 'K' then 'k'
  else if r = 'k' then Char.ofNat 0x212A
  else if r.toNat = 0x212A then 'K'
  else if r = 'S' then 's'
  else if r = 's' then Char.ofNat 0x17F
  else if r.toNat = 0x17F then 'S'
  else if 'A' ≤ r && r ≤ 'Z' then Char.ofNat (r.toNat + 32)
  else if 'a' ≤ r && r ≤ 'z' then Char.ofNat (r.toNat - 32)
  else r

/-- The fold-orbit search loop inside `strings.EqualFold`
(`r := SimpleFold(sr); for r != sr && r < tr { r = SimpleFold(r) }; r == tr`),
with explicit fuel.  Every `simpleFold` orbit has at most three elements,
so the loop always exits within three steps and fuel `4` is exact. -/
def foldSearch : Nat → Char → Char → Char → Bool
  | 0, _, tr, r => r == tr
  | fuel + 1, sr, tr, r =>
    if r ≠ sr ∧ r.toNat < tr.toNat then foldSearch fuel sr tr (simpleFold r)
    else r == tr

/-- Models `strings.EqualFold` from the Go standard library: rune-wise
comparison under simple Unicode case folding. -/
def equalFold : List Char → List Char → Bool
  | sr :: s, tr :: t =>
    if sr = tr then equalFold s t
    else
      let p := if tr.toNat < sr.toNat then (tr, sr) else (sr, tr)
      if p.2.toNat < 128 then
        if ('A' ≤ p.1 ∧ p.1 ≤ 'Z') ∧ p.2.toNat = p.1.toNat + 32 then equalFold s t
        else false
      else
        if foldSearch 4 p.1 p.2 (simpleFold p.1) then equalFold s t
        else false
  | [], [] => true
  | _, _ => false

/-- The hex-digit table `0123456789abcdef` of `encoding/hex`, indexed. -/
def hexDigitChar (n : Nat) : Char :=
  if n < 10 then Char.ofNat (48 + n) else Char.ofNat (87 + n)

/-- Models `hex.EncodeToString` of `encoding/hex`: each byte `v` becomes
`hextable[v>>4]` followed by `hextable[v&0x0f]` (for a byte value the
high nibble `v>>4` is `v / 16`, embedded here as `v / 16 % 16`). -/
def hexEncode : List Nat → List Char
  | [] => []
  | b :: t => hexDigitChar (b / 16 % 16) :: hexDigitChar (b % 16) :: hexEncode t

/-- Models `fromHexChar` of `encoding/hex`: digit value of one hex
character, accepting `0-9`, `a-f` and `A-F`. -/
def fromHexChar (c : Char) : Option Nat :=
  if '0' ≤ c ∧ c ≤ '9' then some (c.toNat - 48)
  else if 'a' ≤ c ∧ c ≤ 'f' then some (c.toNat - 87)
  else if 'A' ≤ c ∧ c ≤ 'F' then some (c.toNat - 55)
  else none

/-- The two error values of `encoding/hex` that `Decode` can produce:
`ErrLength` for an odd-length input and `InvalidByteError` for a
non-hex character. -/
inductive HexError where
  | errLength : HexError
  | invalidByte : Char → HexError
deriving DecidableEq

/-- Decoding loop of `hex.Decode` over an even-length input: consume two
characters per output byte, failing on the first non-hex character. -/
def hexDecodeEven : List Char → Except HexError (List Nat)
  | [] => Except.ok []
  | [_] => Except.error HexError.errLength
  | c1 :: c2 :: t =>
    match fromHexChar c1 with
    | none => Except.error (HexError.invalidByte c1)
    | some a =>
      match fromHexChar c2 with
      | none => Except.error (HexError.invalidByte c2)
      | some b => (hexDecodeEven t).map (fun r => (a * 16 + b) :: r)

/-- Models `hex.DecodeString` of `encoding/hex`: reject odd length,
otherwise decode pairs of hex digits. -/
def hexDecode (s : List Char) : Except HexError (List Nat) :=
  if s.length % 2 = 1 then Except.error HexError.errLength else hexDecodeEven s

/-- Hex digit of `fmt`'s `%X` formatting. -/
def upperHexDigit (n : Nat) : Char :=
  if n < 10 then Char.ofNat (48 + n) else Char.ofNat (55 + n)

/-- Upper-case hexadecimal rendering of a natural number. -/
def natToUpperHex (n : Nat) : List Char :=
  if _h : n < 16 then [upperHexDigit n]
  else natToUpperHex (n / 16) ++ [upperHexDigit (n % 16)]
termination_by n
decreasing_by
  exact Nat.div_lt_self (by omega) (by omega)

/-- Models `fmt`'s `%#U` verb on a rune, as used by
`hex.InvalidByteError.Error`: `U+` followed by at least four upper-case
hex digits and the quoted character (the unprintable-rune variant, which
omits the quoted character, is not distinguished here; no claim inspects
this text). -/
def formatRuneU (c : Char) : List Char :=
  let h := natToUpperHex c.toNat
  "U+".toList ++ List.replicate (4 - h.length) '0' ++ h ++ " '".toList ++ [c] ++ "'".toList

/-- The `Error()` strings of the two `encoding/hex` error values. -/
def hexErrorString : HexError → List Char
  | HexError.errLength => "encoding/hex: odd length hex string".toList
  | HexError.invalidByte c => "encoding/hex: invalid byte: ".toList ++ formatRuneU c

/-! ## The sqlannotation package itself -/

/-- The constant `filteredReplicationUnfriendlyAnnotation` of the
package (note: it has no leading space). -/
def filteredReplicationUnfriendlyAnnotation : List Char :=
  "/* vtgate:: filtered_replication_unfriendly */".toList

/-- The keyspace-id left delimiter literal passed by `ExtractKeySpaceID`
to `extractStringBetween` (inline literal in the source, line 81). -/
def keyspaceIDDelimiter : List Char :=
  "/* vtgate:: keyspace_id:".toList

/-- The unique process-wide state touched by the package: the
`FilteredReplicationUnfriendlyStatementsCount` counter.  (The throttled
warning log is a time-dependent side effect that carries no data back
into the program and is not modelled.) -/
structure AnnotationState where
  filteredReplicationUnfriendlyStatementsCount : Nat
deriving DecidableEq

/-- `AddKeyspaceID(sql, keyspaceID, trailingComments)`:
`fmt.Sprintf("%s /* vtgate:: keyspace_id:%s */%s", sql, hex.EncodeToString(keyspaceID), trailingComments)`. -/
def AddKeyspaceID (sql : List Char) (keyspaceID : List Nat)
    (trailingComments : List Char) : List Char :=
  sql ++ " /* vtgate:: keyspace_id:".toList ++ hexEncode keyspaceID ++
    " */".toList ++ trailingComments

/-- `IsDML(sql)`: trim leading space runes, find the first space rune,
and compare the leading word case-insensitively against
`insert`/`update`/`delete`; no space delimiter means not DML. -/
def IsDML (sql : List Char) : Bool :=
  let s := sql.dropWhile unicodeIsSpace
  match indexFunc s unicodeIsSpace with
  | none => false
  | some e =>
    equalFold (s.take e) ("insert".toList) ||
      equalFold (s.take e) ("update".toList) ||
      equalFold (s.take e) ("delete".toList)

/-- `AnnotateIfDML(sql, keyspaceIDs)` with the counter state passed
explicitly: non-DML statements are returned unchanged; a single
keyspace id is added via `AddKeyspaceID`; otherwise the counter is
incremented, a throttled warning is emitted (not modelled) and the
unfriendly sentinel is appended. -/
def AnnotateIfDML (sql : List Char) (keyspaceIDs : List (List Nat))
    (st : AnnotationState) : List Char × AnnotationState :=
  if !IsDML sql then (sql, st)
  else if keyspaceIDs.length = 1 then
    (AddKeyspaceID sql (keyspaceIDs.getD 0 []) [], st)
  else
    (sql ++ filteredReplicationUnfriendlyAnnotation,
      ⟨st.filteredReplicationUnfriendlyStatementsCount + 1⟩)

/-- `extractStringBetween(source, leftDelim, rightDelim)`: substring
between the leftmost occurrence of `leftDelim` and the next occurrence
of `rightDelim` (to the end of `source` when `rightDelim` does not
follow), plus a found flag. -/
def extractStringBetween (source leftDelim rightDelim : List Char) :
    List Char × Bool :=
  match goIndex source leftDelim with
  | none => ([], false)
  | some leftDelimStart =>
    let matchStart := leftDelimStart + leftDelim.length
    let rest := source.drop matchStart
    match goIndex rest rightDelim with
    | none => (rest, true)
    | some matchEnd => (rest.take matchEnd, true)

/-- The error struct returned by `ExtractKeySpaceID`. -/
structure ExtractKeySpaceIDError where
  Kind : Nat
  Message : List Char
deriving DecidableEq

/-- First constant of the `Kind` iota block. -/
def ExtractKeySpaceIDParseError : Nat := 0

/-- Second constant of the `Kind` iota block. -/
def ExtractKeySpaceIDReplicationUnfriendlyError : Nat := 1

/-- Message of the conflicting-annotations parse error
(`fmt.Sprintf("Conflicting annotations in statement '%v'", sql)`). -/
def conflictingAnnotationsMessage (sql : List Char) : List Char :=
  "Conflicting annotations in statement '".toList ++ sql ++ "'".toList

/-- Message of the hex-decode-failure parse error
(`fmt.Sprintf("Error parsing keyspace id value in statement: %v (%v)", sql, err)`). -/
def parsingKeyspaceIDValueMessage (sql : List Char) (e : HexError) : List Char :=
  "Error parsing keyspace id value in statement: ".toList ++ sql ++
    " (".toList ++ hexErrorString e ++ ")".toList

/-- Message of the replication-unfriendly error
(`fmt.Sprintf("Statement: %v", sql)`). -/
def unfriendlyStatementMessage (sql : List Char) : List Char :=
  "Statement: ".toList ++ sql

/-- Message of the no-annotation parse error
(`fmt.Sprintf("No annotation found in '%v'", sql)`). -/
def noAnnotationFoundMessage (sql : List Char) : List Char :=
  "No annotation found in '".toList ++ sql ++ "'".toList

/-- `ExtractKeySpaceID(sql)`: the pair `(keyspaceID, err)`.  `none` in
the first component models a nil byte slice, `none` in the second a nil
error. -/
def ExtractKeySpaceID (sql : List Char) :
    Option (List Nat) × Option ExtractKeySpaceIDError :=
  let r := extractStringBetween sql keyspaceIDDelimiter (" ".toList)
  let keyspaceIDString := r.1
  let hasKeySpaceID := r.2
  let hasUnfriendlyAnnotation :=
    (goIndex sql filteredReplicationUnfriendlyAnnotation).isSome
  if hasKeySpaceID then
    if hasUnfriendlyAnnotation then
      (none, some { Kind := ExtractKeySpaceIDParseError,
                    Message := conflictingAnnotationsMessage sql })
    else
      match hexDecode keyspaceIDString with
      | Except.ok bs => (some bs, none)
      | Except.error e =>
        (none, some { Kind := ExtractKeySpaceIDParseError,
                      Message := parsingKeyspaceIDValueMessage sql e })
  else if hasUnfriendlyAnnotation then
    (none, some { Kind := ExtractKeySpaceIDReplicationUnfriendlyError,
                  Message := unfriendlyStatementMessage sql })
  else
    (none, some { Kind := ExtractKeySpaceIDParseError,
                  Message := noAnnotationFoundMessage sql })

/-- The `Error()` method of `ExtractKeySpaceIDError`; `none` models the
defensive `log.Fatalf` default branch, which aborts the process on a
`Kind` outside the two defined constants. -/
def ExtractKeySpaceIDError.errorMessage (err : ExtractKeySpaceIDError) :
    Option (List Char) :=
  if err.Kind = ExtractKeySpaceIDParseError then
    some ("Parse-Error. ".toList ++ err.Message)
  else if err.Kind = ExtractKeySpaceIDReplicationUnfriendlyError then
    some ("Statement is filtered-replication-unfriendly. ".toList ++ err.Message)
  else none

/-! ## Helper lemmas: isPrefixOf -/

theorem isPrefixOf_iff_exists (p s : List Char) :
    p.isPrefixOf s = true ↔ ∃ t, s = p ++ t := by
  induction p generalizing s with
  | nil => simp [List.isPrefixOf]
  | cons a p ih =>
    cases s with
    | nil => simp [List.isPrefixOf]
    | cons b s =>
      simp only [List.isPrefixOf, Bool.and_eq_true, beq_iff_eq]
      constructor
      · rintro ⟨rfl, h⟩
        obtain ⟨t, rfl⟩ := (ih s).mp h
        exact ⟨t, rfl⟩
      · rintro ⟨t, ht⟩
        injection ht with h1 h2
        exact ⟨h1.symm, (ih s).mpr ⟨t, h2⟩⟩

theorem length_le_of_isPrefixOf {p s : List Char} (h : p.isPrefixOf s = true) :
    p.length ≤ s.length := by
  obtain ⟨t, rfl⟩ := (isPrefixOf_iff_exists p s).mp h
  simp

theorem isPrefixOf_of_append_le {p c r : List Char}
    (h : p.isPrefixOf (c ++ r) = true) (hl : p.length ≤ c.length) :
    p.isPrefixOf c = true := by
  obtain ⟨t, ht⟩ := (isPrefixOf_iff_exists p (c ++ r)).mp h
  have h1 : c.take p.length = p := by
    have h2 := congrArg (List.take p.length) ht
    rwa [List.take_append_of_le_length hl, List.take_left' rfl] at h2
  have h3 : c = p ++ c.drop p.length := by
    conv_lhs => rw [← List.take_append_drop p.length c]
    rw [h1]
  exact (isPrefixOf_iff_exists p c).mpr ⟨c.drop p.length, h3⟩

theorem take_eq_of_isPrefixOf_append {p c r : List Char}
    (h : p.isPrefixOf (c ++ r) = true) (hl : c.length ≤ p.length) :
    c = p.take c.length := by
  obtain ⟨t, ht⟩ := (isPrefixOf_iff_exists p (c ++ r)).mp h
  have h2 := congrArg (List.take c.length) ht
  rwa [List.take_left' rfl, List.take_append_of_le_length hl] at h2

theorem straddle_of_isPrefixOf_append {p t A : List Char}
    (h : p.isPrefixOf (t ++ A) = true) (hl : t.length < p.length) :
    t = p.take t.length ∧ (p.drop t.length).isPrefixOf A = true := by
  obtain ⟨u, hu⟩ := (isPrefixOf_iff_exists p (t ++ A)).mp h
  have h1 : t = p.take t.length := by
    have h2 := congrArg (List.take t.length) hu
    rwa [List.take_left' rfl, List.take_append_of_le_length (Nat.le_of_lt hl)] at h2
  have h3 : A = p.drop t.length ++ u := by
    have h2 := congrArg (List.drop t.length) hu
    rwa [List.drop_left' rfl, List.drop_append_of_le_length (Nat.le_of_lt hl)] at h2
  exact ⟨h1, (isPrefixOf_iff_exists _ A).mpr ⟨u, h3⟩⟩

/-! ## Helper lemmas: goIndex and occurrences -/

/-- `pat` occurs as a contiguous substring of `s`. -/
def OccursIn (pat s : List Char) : Prop := ∃ a b, s = a ++ pat ++ b

theorem goIndex_eq_none_iff (s pat : List Char) :
    goIndex s pat = none ↔ ∀ i, pat.isPrefixOf (s.drop i) = false := by
  induction s with
  | nil =>
    simp only [goIndex, List.drop_nil]
    by_cases hp : pat.isPrefixOf ([] : List Char) = true
    · simp [hp]
    · simp only [Bool.not_eq_true] at hp
      simp [hp]
  | cons c t ih =>
    by_cases h0 : pat.isPrefixOf (c :: t) = true
    · simp only [goIndex]
      rw [if_pos h0]
      constructor
      · intro h; exact absurd h (by simp)
      · intro h
        have h00 := h 0
        rw [List.drop_zero, h0] at h00
        exact absurd h00 (by decide)
    · have h0' : pat.isPrefixOf (c :: t) = false := Bool.eq_false_iff.mpr h0
      simp only [goIndex]
      rw [if_neg h0]
      constructor
      · intro h i
        have hnone : goIndex t pat = none := by
          cases hg : goIndex t pat with
          | none => rfl
          | some m => rw [hg] at h; simp at h
        cases i with
        | zero => exact h0'
        | succ j => exact (ih.mp hnone) j
      · intro h
        have hnone : goIndex t pat = none :=
          ih.mpr (fun i => h (i + 1))
        simp [hnone]

theorem goIndex_eq_some_iff (s pat : List Char) (n : Nat) :
    goIndex s pat = some n ↔
      pat.isPrefixOf (s.drop n) = true ∧ ∀ i < n, pat.isPrefixOf (s.drop i) = false := by
  induction s generalizing n with
  | nil =>
    by_cases hp : pat.isPrefixOf ([] : List Char) = true
    · simp only [goIndex, List.drop_nil]
      rw [if_pos hp]
      constructor
      · intro h
        injection h with h
        subst h
        exact ⟨hp, by omega⟩
      · rintro ⟨_, h2⟩
        rcases Nat.eq_zero_or_pos n with rfl | hn
        · rfl
        · have h20 := h2 0 hn
          rw [hp] at h20
          exact absurd h20 (by decide)
    · simp only [goIndex, List.drop_nil]
      rw [if_neg hp]
      constructor
      · intro h; exact absurd h (by simp)
      · rintro ⟨h1, _⟩; exact absurd h1 hp
  | cons c t ih =>
    by_cases h0 : pat.isPrefixOf (c :: t) = true
    · simp only [goIndex]
      rw [if_pos h0]
      constructor
      · intro h
        injection h with h
        subst h
        exact ⟨h0, by omega⟩
      · rintro ⟨_, h2⟩
        rcases Nat.eq_zero_or_pos n with rfl | hn
        · rfl
        · have h20 := h2 0 hn
          rw [List.drop_zero, h0] at h20
          exact absurd h20 (by decide)
    · have h0' : pat.isPrefixOf (c :: t) = false := Bool.eq_false_iff.mpr h0
      simp only [goIndex]
      rw [if_neg h0]
      cases hg : goIndex t pat with
      | none =>
        constructor
        · intro h; simp at h
        · rintro ⟨h1, _⟩
          cases n with
          | zero =>
            rw [List.drop_zero, h0'] at h1
            simp at h1
          | succ m =>
            have hm := (goIndex_eq_none_iff t pat).mp hg m
            rw [List.drop_succ_cons, hm] at h1
            simp at h1
      | some m =>
        constructor
        · intro h
          have hn : n = m + 1 := by
            have h' : some (m + 1) = some n := h
            injection h' with h'
            omega
          subst hn
          obtain ⟨h1, h2⟩ := (ih m).mp hg
          refine ⟨h1, ?_⟩
          intro i hi
          cases i with
          | zero => exact h0'
          | succ j => exact h2 j (by omega)
        · rintro ⟨h1, h2⟩
          cases n with
          | zero =>
            rw [List.drop_zero, h0'] at h1
            simp at h1
          | succ k =>
            have hk : goIndex t pat = some k := by
              refine (ih k).mpr ⟨h1, ?_⟩
              intro j hj
              exact h2 (j + 1) (by omega)
            rw [hg] at hk
            injection hk with hk
            subst hk
            rfl

theorem occursIn_iff_exists_drop (pat s : List Char) :
    OccursIn pat s ↔ ∃ i, pat.isPrefixOf (s.drop i) = true := by
  constructor
  · rintro ⟨a, b, rfl⟩
    refine ⟨a.length, ?_⟩
    rw [List.append_assoc, List.drop_left]
    exact (isPrefixOf_iff_exists pat (pat ++ b)).mpr ⟨b, rfl⟩
  · rintro ⟨i, h⟩
    obtain ⟨u, hu⟩ := (isPrefixOf_iff_exists pat (s.drop i)).mp h
    refine ⟨s.take i, u, ?_⟩
    conv_lhs => rw [← List.take_append_drop i s]
    rw [hu, List.append_assoc]

theorem goIndex_isSome_iff_occursIn (s pat : List Char) :
    (goIndex s pat).isSome = true ↔ OccursIn pat s := by
  rw [occursIn_iff_exists_drop]
  constructor
  · intro h
    obtain ⟨n, hn⟩ := Option.isSome_iff_exists.mp h
    exact ⟨n, ((goIndex_eq_some_iff s pat n).mp hn).1⟩
  · rintro ⟨i, hi⟩
    cases h : goIndex s pat with
    | none => exact absurd hi (by simp [(goIndex_eq_none_iff s pat).mp h i])
    | some n => simp

theorem goIndex_eq_none_of_not_occursIn {s pat : List Char} (h : ¬ OccursIn pat s) :
    goIndex s pat = none := by
  cases hg : goIndex s pat with
  | none => rfl
  | some n => exact absurd ((goIndex_isSome_iff_occursIn s pat).mp (by simp [hg])) h

theorem not_occursIn_of_goIndex_none {s pat : List Char} (h : goIndex s pat = none) :
    ¬ OccursIn pat s := by
  intro hocc
  have hs := (goIndex_isSome_iff_occursIn s pat).mpr hocc
  simp [h] at hs

theorem goIndex_single_some (xs ys : List Char) (y : Char)
    (h : ∀ c ∈ xs, c ≠ y) : goIndex (xs ++ y :: ys) [y] = some xs.length := by
  induction xs with
  | nil => simp [goIndex, List.isPrefixOf]
  | cons x t ih =>
    have hx : x ≠ y := h x (by simp)
    have hip : ([y]).isPrefixOf (x :: (t ++ y :: ys)) = false := by
      simp only [List.isPrefixOf, Bool.and_eq_true, beq_iff_eq]
      simp only [Bool.and_eq_false_iff]
      exact Or.inl (by simp [beq_iff_eq]; exact fun he => absurd he.symm hx)
    simp only [List.cons_append, goIndex, List.append_eq, hip, Bool.false_eq_true, if_false]
    rw [ih (fun c hc => h c (List.mem_cons_of_mem x hc))]
    simp

theorem goIndex_single_none (b : List Char) (y : Char)
    (h : ∀ c ∈ b, c ≠ y) : goIndex b [y] = none := by
  rw [goIndex_eq_none_iff]
  intro i
  cases hd : b.drop i with
  | nil => simp [List.isPrefixOf]
  | cons c t =>
    have hc : c ∈ b := by
      have hm : c ∈ b.drop i := by simp [hd]
      exact List.mem_of_mem_drop hm
    have hcy := h c hc
    simp only [List.isPrefixOf, Bool.and_eq_true, beq_iff_eq]
    simp only [Bool.and_eq_false_iff]
    exact Or.inl (by simp [beq_iff_eq]; exact fun he => absurd he.symm hcy)

theorem bool_eq_true_of_not_eq_false {b : Bool} (h : ¬ b = false) : b = true := by
  cases b
  · exact absurd rfl h
  · rfl

theorem dropGeAppend {α : Type} (a b : List α) (n : Nat) (h : a.length ≤ n) :
    (a ++ b).drop n = b.drop (n - a.length) := by
  have hn : n = a.length + (n - a.length) := by omega
  conv_lhs => rw [hn]
  rw [List.drop_append]

/-! ## Helper lemmas: hex encoding -/

/-- The `hextable` constant `0123456789abcdef` of `encoding/hex`. -/
def hexDigits : List Char := "0123456789abcdef".toList

theorem hexDigitChar_mem : ∀ n, n < 16 → hexDigitChar n ∈ hexDigits := by decide

theorem fromHexChar_hexDigitChar : ∀ n, n < 16 → fromHexChar (hexDigitChar n) = some n := by
  decide

theorem space_not_mem_hexDigits : ¬ (' ' ∈ hexDigits) := by decide

theorem slash_not_mem_hexDigits : ¬ ('/' ∈ hexDigits) := by decide

theorem hexEncode_subset_hexDigits (id : List Nat) : ∀ c ∈ hexEncode id, c ∈ hexDigits := by
  induction id with
  | nil => simp [hexEncode]
  | cons b t ih =>
    intro c hc
    simp only [hexEncode, List.mem_cons] at hc
    rcases hc with rfl | hc
    · exact hexDigitChar_mem _ (Nat.mod_lt _ (by omega))
    rcases hc with rfl | hc
    · exact hexDigitChar_mem _ (Nat.mod_lt _ (by omega))
    · exact ih c hc

theorem length_hexEncode (id : List Nat) : (hexEncode id).length = 2 * id.length := by
  induction id with
  | nil => rfl
  | cons b t ih => simp [hexEncode, ih]; omega

theorem hexDecodeEven_hexEncode (id : List Nat) (h : ∀ b ∈ id, b < 256) :
    hexDecodeEven (hexEncode id) = Except.ok id := by
  induction id with
  | nil => rfl
  | cons b t ih =>
    have hb : b < 256 := h b (by simp)
    have h1 : fromHexChar (hexDigitChar (b / 16 % 16)) = some (b / 16 % 16) :=
      fromHexChar_hexDigitChar _ (Nat.mod_lt _ (by omega))
    have h2 : fromHexChar (hexDigitChar (b % 16)) = some (b % 16) :=
      fromHexChar_hexDigitChar _ (Nat.mod_lt _ (by omega))
    simp only [hexEncode, hexDecodeEven, h1, h2]
    rw [ih (fun x hx => h x (by simp [hx]))]
    simp only [Except.map]
    have harith : b / 16 % 16 * 16 + b % 16 = b := by omega
    rw [harith]

theorem hexDecode_hexEncode (id : List Nat) (h : ∀ b ∈ id, b < 256) :
    hexDecode (hexEncode id) = Except.ok id := by
  unfold hexDecode
  rw [if_neg (by rw [length_hexEncode]; omega)]
  exact hexDecodeEven_hexEncode id h

/-! ## Decidable facts about the two marker literals -/

theorem keyspaceIDDelimiter_length : keyspaceIDDelimiter.length = 24 := by decide

theorem sentinel_length : filteredReplicationUnfriendlyAnnotation.length = 46 := by decide

theorem header_eq : " /* vtgate:: keyspace_id:".toList = ' ' :: keyspaceIDDelimiter := by decide

theorem decFact_delim_straddle :
    ∀ k, k < 24 →
      (keyspaceIDDelimiter.drop k).isPrefixOf (' ' :: keyspaceIDDelimiter) = false := by
  decide

theorem decFact_sent_straddle_short :
    ∀ k, 21 ≤ k → k < 46 →
      (List.drop k filteredReplicationUnfriendlyAnnotation).isPrefixOf
        (' ' :: keyspaceIDDelimiter) = false := by
  decide

theorem decFact_sent_straddle_long :
    ∀ k, k < 21 →
      ¬ (' ' :: keyspaceIDDelimiter =
          (List.drop k filteredReplicationUnfriendlyAnnotation).take 25) := by
  decide

theorem decFact_sent_inA :
    ∀ q, q < 25 →
      ¬ ((' ' :: keyspaceIDDelimiter).drop q =
          filteredReplicationUnfriendlyAnnotation.take (25 - q)) := by
  decide

theorem sentinel_take_one : filteredReplicationUnfriendlyAnnotation.take 1 = ['/'] := by
  decide

/-! ## Occurrence analysis of the annotated statement -/

theorem goIndex_keyspace_delim (s rest : List Char)
    (hno : ¬ OccursIn keyspaceIDDelimiter s) :
    goIndex (s ++ ' ' :: (keyspaceIDDelimiter ++ rest)) keyspaceIDDelimiter
      = some (s.length + 1) := by
  rw [goIndex_eq_some_iff]
  constructor
  · have hsplit : s ++ ' ' :: (keyspaceIDDelimiter ++ rest)
        = (s ++ [' ']) ++ (keyspaceIDDelimiter ++ rest) := by simp
    rw [hsplit, List.drop_left' (by simp)]
    exact (isPrefixOf_iff_exists _ _).mpr ⟨rest, rfl⟩
  · intro i hi
    apply Bool.eq_false_iff.mpr
    intro htrue
    have hi' : i ≤ s.length := by omega
    rw [List.drop_append_of_le_length hi'] at htrue
    by_cases hl : keyspaceIDDelimiter.length ≤ (s.drop i).length
    · have hp2 := isPrefixOf_of_append_le htrue hl
      obtain ⟨u, hu⟩ := (isPrefixOf_iff_exists _ _).mp hp2
      refine hno ⟨s.take i, u, ?_⟩
      conv_lhs => rw [← List.take_append_drop i s]
      rw [hu, List.append_assoc]
    · push_neg at hl
      obtain ⟨_, h2⟩ := straddle_of_isPrefixOf_append htrue hl
      have hA : (' ' :: (keyspaceIDDelimiter ++ rest))
          = (' ' :: keyspaceIDDelimiter) ++ rest := rfl
      rw [hA] at h2
      have hlen : (keyspaceIDDelimiter.drop (s.drop i).length).length ≤
          (' ' :: keyspaceIDDelimiter).length := by
        simp only [List.length_drop, List.length_cons]
        omega
      have h3 := isPrefixOf_of_append_le h2 hlen
      rw [keyspaceIDDelimiter_length] at hl
      have h4 := decFact_delim_straddle (s.drop i).length hl
      rw [h3] at h4
      exact absurd h4 (by decide)

theorem sentinel_not_prefixOf_hexTail (hx : List Char)
    (hhex : ∀ c ∈ hx, c ∈ hexDigits) (r : Nat) :
    filteredReplicationUnfriendlyAnnotation.isPrefixOf
      ((hx ++ " */".toList).drop r) = false := by
  induction hx generalizing r with
  | nil =>
    apply Bool.eq_false_iff.mpr
    intro htrue
    have hlen := length_le_of_isPrefixOf htrue
    rw [sentinel_length] at hlen
    simp only [List.nil_append, List.length_drop] at hlen
    have h3 : (" */".toList).length = 3 := by decide
    omega
  | cons c t ih =>
    cases r with
    | zero =>
      apply Bool.eq_false_iff.mpr
      intro htrue
      have hdz : ((c :: t ++ " */".toList)).drop 0 = [c] ++ (t ++ " */".toList) := rfl
      rw [hdz] at htrue
      have hc := take_eq_of_isPrefixOf_append htrue (by rw [sentinel_length]; simp)
      have hl1 : ([c] : List Char).length = 1 := rfl
      rw [hl1, sentinel_take_one] at hc
      have hc' : c = '/' := by injection hc with h1 _
      have hmem : c ∈ hexDigits := hhex c (by simp)
      rw [hc'] at hmem
      exact slash_not_mem_hexDigits hmem
    | succ r' =>
      exact ih (fun x hxm => hhex x (List.mem_cons_of_mem c hxm)) r'

theorem sentinel_not_prefixOf_A (hx : List Char)
    (hhex : ∀ c ∈ hx, c ∈ hexDigits) (q : Nat) :
    filteredReplicationUnfriendlyAnnotation.isPrefixOf
      (((' ' :: keyspaceIDDelimiter) ++ (hx ++ " */".toList)).drop q) = false := by
  by_cases hq : q < 25
  · apply Bool.eq_false_iff.mpr
    intro htrue
    have hql : q ≤ (' ' :: keyspaceIDDelimiter).length := by
      simp only [List.length_cons, keyspaceIDDelimiter_length]
      omega
    rw [List.drop_append_of_le_length hql] at htrue
    have hcl : ((' ' :: keyspaceIDDelimiter).drop q).length ≤
        filteredReplicationUnfriendlyAnnotation.length := by
      simp only [List.length_drop, List.length_cons, keyspaceIDDelimiter_length,
        sentinel_length]
      omega
    have h3 := take_eq_of_isPrefixOf_append htrue hcl
    have hlq : ((' ' :: keyspaceIDDelimiter).drop q).length = 25 - q := by
      simp only [List.length_drop, List.length_cons, keyspaceIDDelimiter_length]
    rw [hlq] at h3
    exact decFact_sent_inA q hq h3
  · push_neg at hq
    have hdrop := dropGeAppend (' ' :: keyspaceIDDelimiter) (hx ++ " */".toList) q
      (by simp only [List.length_cons, keyspaceIDDelimiter_length]; omega)
    rw [hdrop]
    have h25 : (' ' :: keyspaceIDDelimiter).length = 25 := by decide
    rw [h25]
    exact sentinel_not_prefixOf_hexTail hx hhex (q - 25)

theorem goIndex_sentinel_annotated (s hx : List Char)
    (hhex : ∀ c ∈ hx, c ∈ hexDigits)
    (hno : ¬ OccursIn filteredReplicationUnfriendlyAnnotation s) :
    goIndex (s ++ ' ' :: (keyspaceIDDelimiter ++ (hx ++ " */".toList)))
        filteredReplicationUnfriendlyAnnotation = none := by
  rw [goIndex_eq_none_iff]
  intro i
  apply Bool.eq_false_iff.mpr
  intro htrue
  by_cases hi : i ≤ s.length
  · rw [List.drop_append_of_le_length hi] at htrue
    by_cases hl : filteredReplicationUnfriendlyAnnotation.length ≤ (s.drop i).length
    · have hp2 := isPrefixOf_of_append_le htrue hl
      obtain ⟨u, hu⟩ := (isPrefixOf_iff_exists _ _).mp hp2
      refine hno ⟨s.take i, u, ?_⟩
      conv_lhs => rw [← List.take_append_drop i s]
      rw [hu, List.append_assoc]
    · push_neg at hl
      obtain ⟨_, h2⟩ := straddle_of_isPrefixOf_append htrue hl
      have hA : (' ' :: (keyspaceIDDelimiter ++ (hx ++ " */".toList)))
          = (' ' :: keyspaceIDDelimiter) ++ (hx ++ " */".toList) := rfl
      rw [hA] at h2
      rw [sentinel_length] at hl
      set k := (s.drop i).length with hk
      by_cases hks : 21 ≤ k
      · have hlen : ((List.drop k filteredReplicationUnfriendlyAnnotation).length ≤
            (' ' :: keyspaceIDDelimiter).length) := by
          simp only [List.length_drop, List.length_cons, keyspaceIDDelimiter_length,
            sentinel_length]
          omega
        have h3 := isPrefixOf_of_append_le h2 hlen
        have h4 := decFact_sent_straddle_short k hks hl
        rw [h3] at h4
        exact absurd h4 (by decide)
      · push_neg at hks
        have hcl : (' ' :: keyspaceIDDelimiter).length ≤
            (List.drop k filteredReplicationUnfriendlyAnnotation).length := by
          simp only [List.length_drop, List.length_cons, keyspaceIDDelimiter_length,
            sentinel_length]
          omega
        have h3 := take_eq_of_isPrefixOf_append h2 hcl
        have h25 : (' ' :: keyspaceIDDelimiter).length = 25 := by decide
        rw [h25] at h3
        exact decFact_sent_straddle_long k hks h3
  · push_neg at hi
    have hdrop := dropGeAppend s (' ' :: (keyspaceIDDelimiter ++ (hx ++ " */".toList))) i
      (by omega)
    rw [hdrop] at htrue
    have hA : (' ' :: (keyspaceIDDelimiter ++ (hx ++ " */".toList)))
        = (' ' :: keyspaceIDDelimiter) ++ (hx ++ " */".toList) := rfl
    rw [hA] at htrue
    rw [sentinel_not_prefixOf_A hx hhex (i - s.length)] at htrue
    exact absurd htrue (by decide)

theorem extractStringBetween_none {source l r : List Char} (h : goIndex source l = none) :
    extractStringBetween source l r = ([], false) := by
  unfold extractStringBetween
  rw [h]

theorem extractStringBetween_some_none {source l r : List Char} {n : Nat}
    (h : goIndex source l = some n)
    (h2 : goIndex (source.drop (n + l.length)) r = none) :
    extractStringBetween source l r = (source.drop (n + l.length), true) := by
  unfold extractStringBetween
  rw [h]
  simp [h2]

theorem extractStringBetween_some_some {source l r : List Char} {n m : Nat}
    (h : goIndex source l = some n)
    (h2 : goIndex (source.drop (n + l.length)) r = some m) :
    extractStringBetween source l r = ((source.drop (n + l.length)).take m, true) := by
  unfold extractStringBetween
  rw [h]
  simp [h2]

theorem extractStringBetween_found_iff (source l r : List Char) :
    (extractStringBetween source l r).2 = (goIndex source l).isSome := by
  unfold extractStringBetween
  cases h : goIndex source l with
  | none => simp
  | some n =>
    cases h2 : goIndex (source.drop (n + l.length)) r with
    | none => simp [h2]
    | some m => simp [h2]

theorem extractKeySpaceID_conflict {sql : List Char}
    (h1 : (extractStringBetween sql keyspaceIDDelimiter (" ".toList)).2 = true)
    (h2 : (goIndex sql filteredReplicationUnfriendlyAnnotation).isSome = true) :
    ExtractKeySpaceID sql =
      (none, some ⟨ExtractKeySpaceIDParseError, conflictingAnnotationsMessage sql⟩) := by
  unfold ExtractKeySpaceID
  simp only [h1, h2, if_true]

theorem extractKeySpaceID_decode {sql : List Char}
    (h1 : (extractStringBetween sql keyspaceIDDelimiter (" ".toList)).2 = true)
    (h2 : goIndex sql filteredReplicationUnfriendlyAnnotation = none) :
    ExtractKeySpaceID sql =
      (match hexDecode (extractStringBetween sql keyspaceIDDelimiter (" ".toList)).1 with
       | Except.ok bs => (some bs, none)
       | Except.error e =>
         (none, some ⟨ExtractKeySpaceIDParseError, parsingKeyspaceIDValueMessage sql e⟩)) := by
  unfold ExtractKeySpaceID
  simp only [h1, h2, Option.isSome_none, if_true, Bool.false_eq_true, if_false]

theorem extractKeySpaceID_unfriendly_case {sql : List Char}
    (h1 : (extractStringBetween sql keyspaceIDDelimiter (" ".toList)).2 = false)
    (h2 : (goIndex sql filteredReplicationUnfriendlyAnnotation).isSome = true) :
    ExtractKeySpaceID sql =
      (none, some ⟨ExtractKeySpaceIDReplicationUnfriendlyError,
        unfriendlyStatementMessage sql⟩) := by
  unfold ExtractKeySpaceID
  simp only [h1, h2, Bool.false_eq_true, if_false, if_true]

theorem extractKeySpaceID_no_marker {sql : List Char}
    (h1 : (extractStringBetween sql keyspaceIDDelimiter (" ".toList)).2 = false)
    (h2 : goIndex sql filteredReplicationUnfriendlyAnnotation = none) :
    ExtractKeySpaceID sql =
      (none, some ⟨ExtractKeySpaceIDParseError, noAnnotationFoundMessage sql⟩) := by
  unfold ExtractKeySpaceID
  simp only [h1, h2, Option.isSome_none, Bool.false_eq_true, if_false]

theorem addKeyspaceID_shape (s : List Char) (id : List Nat) (tc : List Char) :
    AddKeyspaceID s id tc
      = s ++ ' ' :: (keyspaceIDDelimiter ++ (hexEncode id ++ (" */".toList ++ tc))) := by
  unfold AddKeyspaceID
  rw [header_eq]
  simp [List.append_assoc]

theorem addKeyspaceID_shape_nil (s : List Char) (id : List Nat) :
    AddKeyspaceID s id []
      = s ++ ' ' :: (keyspaceIDDelimiter ++ (hexEncode id ++ " */".toList)) := by
  rw [addKeyspaceID_shape]
  simp

theorem extract_annotated (s hx : List Char)
    (hhex : ∀ c ∈ hx, c ∈ hexDigits)
    (hno : ¬ OccursIn keyspaceIDDelimiter s) :
    extractStringBetween (s ++ ' ' :: (keyspaceIDDelimiter ++ (hx ++ " */".toList)))
        keyspaceIDDelimiter (" ".toList) = (hx, true) := by
  have h1 := goIndex_keyspace_delim s (hx ++ " */".toList) hno
  have hsplit : s ++ ' ' :: (keyspaceIDDelimiter ++ (hx ++ " */".toList))
      = (s ++ ' ' :: keyspaceIDDelimiter) ++ (hx ++ " */".toList) := by simp
  have hlen : (s ++ ' ' :: keyspaceIDDelimiter).length
      = s.length + 1 + keyspaceIDDelimiter.length := by
    simp only [List.length_append, List.length_cons]
    omega
  have hrest : (s ++ ' ' :: (keyspaceIDDelimiter ++ (hx ++ " */".toList))).drop
      (s.length + 1 + keyspaceIDDelimiter.length) = hx ++ " */".toList := by
    rw [hsplit, List.drop_left' hlen]
  have hnospace : ∀ c ∈ hx, c ≠ ' ' := fun c hc he =>
    space_not_mem_hexDigits (he ▸ hhex c hc)
  have h2 : goIndex ((s ++ ' ' :: (keyspaceIDDelimiter ++ (hx ++ " */".toList))).drop
      (s.length + 1 + keyspaceIDDelimiter.length)) (" ".toList) = some hx.length := by
    rw [hrest]
    have hsp : (" ".toList : List Char) = [' '] := rfl
    have htail : (hx ++ " */".toList : List Char) = hx ++ ' ' :: "*/".toList := rfl
    rw [hsp, htail]
    exact goIndex_single_some hx ("*/".toList) ' ' hnospace
  rw [extractStringBetween_some_some h1 h2, hrest]
  rw [List.take_left' rfl]

theorem extractKeySpaceID_addKeyspaceID (s : List Char) (id : List Nat)
    (hid : ∀ b ∈ id, b < 256)
    (h1 : ¬ OccursIn keyspaceIDDelimiter s)
    (h2 : ¬ OccursIn filteredReplicationUnfriendlyAnnotation s) :
    ExtractKeySpaceID (AddKeyspaceID s id []) = (some id, none) := by
  have hhex := hexEncode_subset_hexDigits id
  have hshape := addKeyspaceID_shape_nil s id
  have hesb : extractStringBetween (AddKeyspaceID s id []) keyspaceIDDelimiter (" ".toList)
      = (hexEncode id, true) := by
    rw [hshape]
    exact extract_annotated s _ hhex h1
  have hsent : goIndex (AddKeyspaceID s id []) filteredReplicationUnfriendlyAnnotation
      = none := by
    rw [hshape]
    exact goIndex_sentinel_annotated s _ hhex h2
  have hfound : (extractStringBetween (AddKeyspaceID s id []) keyspaceIDDelimiter
      (" ".toList)).2 = true := by
    rw [hesb]
  have hdec := extractKeySpaceID_decode hfound hsent
  rw [hdec]
  simp only [hesb]
  rw [hexDecode_hexEncode id hid]

/-! ## Helper lemmas: indexFunc and dropWhile -/

theorem indexFunc_eq_none_iff (l : List Char) (p : Char → Bool) :
    indexFunc l p = none ↔ ∀ x ∈ l, p x = false := by
  induction l with
  | nil => simp [indexFunc]
  | cons c t ih =>
    by_cases hc : p c = true
    · simp only [indexFunc]
      rw [if_pos hc]
      constructor
      · intro h; exact absurd h (by simp)
      · intro h
        rw [h c (by simp)] at hc
        exact absurd hc (by decide)
    · have hc' : p c = false := Bool.eq_false_iff.mpr hc
      simp only [indexFunc]
      rw [if_neg hc]
      constructor
      · intro h x hx
        have hnone : indexFunc t p = none := by
          cases hg : indexFunc t p with
          | none => rfl
          | some m => rw [hg] at h; simp at h
        rcases List.mem_cons.mp hx with rfl | hx'
        · exact hc'
        · exact (ih.mp hnone) x hx'
      · intro h
        have hnone : indexFunc t p = none :=
          ih.mpr (fun x hx => h x (List.mem_cons_of_mem c hx))
        simp [hnone]

theorem indexFunc_eq_some_iff (l : List Char) (p : Char → Bool) (n : Nat) :
    indexFunc l p = some n ↔
      ∃ w c r, l = w ++ c :: r ∧ w.length = n ∧ (∀ x ∈ w, p x = false) ∧ p c = true := by
  induction l generalizing n with
  | nil =>
    simp only [indexFunc]
    constructor
    · intro h; exact absurd h (by simp)
    · rintro ⟨w, c, r, hl, _, _, _⟩
      exact absurd hl.symm (by simp)
  | cons a t ih =>
    by_cases ha : p a = true
    · simp only [indexFunc]
      rw [if_pos ha]
      constructor
      · intro h
        injection h with h
        subst h
        exact ⟨[], a, t, rfl, rfl, by simp, ha⟩
      · rintro ⟨w, c, r, hl, hlen, hw, hc⟩
        cases w with
        | nil =>
          subst hlen
          rfl
        | cons w0 ws =>
          injection hl with h1 h2
          subst h1
          have hfa := hw a (by simp)
          rw [hfa] at ha
          exact absurd ha (by decide)
    · have ha' : p a = false := Bool.eq_false_iff.mpr ha
      simp only [indexFunc]
      rw [if_neg ha]
      constructor
      · intro h
        have hex : ∃ m, indexFunc t p = some m ∧ n = m + 1 := by
          cases hg : indexFunc t p with
          | none => rw [hg] at h; simp at h
          | some m =>
            rw [hg] at h
            have h' : some (m + 1) = some n := h
            injection h' with h'
            exact ⟨m, rfl, h'.symm⟩
        obtain ⟨m, hm, rfl⟩ := hex
        obtain ⟨w, c, r, hl, hlen, hw, hc⟩ := (ih m).mp hm
        refine ⟨a :: w, c, r, by rw [hl]; rfl, by simp [hlen], ?_, hc⟩
        intro x hx
        rcases List.mem_cons.mp hx with rfl | hx'
        · exact ha'
        · exact hw x hx'
      · rintro ⟨w, c, r, hl, hlen, hw, hc⟩
        cases w with
        | nil =>
          injection hl with h1 h2
          subst h1
          rw [hc] at ha'
          exact absurd ha' (by decide)
        | cons w0 ws =>
          injection hl with h1 h2
          subst h1
          have hm : indexFunc t p = some ws.length :=
            (ih ws.length).mpr
              ⟨ws, c, r, h2, rfl, fun x hx => hw x (List.mem_cons_of_mem _ hx), hc⟩
          rw [hm]
          subst hlen
          rfl

theorem dropWhile_eq_nil_of_all (l : List Char) (p : Char → Bool)
    (h : ∀ x ∈ l, p x = true) : l.dropWhile p = [] := by
  induction l with
  | nil => rfl
  | cons c t ih =>
    rw [List.dropWhile_cons, if_pos (h c (by simp))]
    exact ih (fun x hx => h x (List.mem_cons_of_mem c hx))

theorem isDML_eq_false_of_none (sql : List Char)
    (h : indexFunc (sql.dropWhile unicodeIsSpace) unicodeIsSpace = none) :
    IsDML sql = false := by
  simp only [IsDML]
  rw [h]

theorem isDML_eq_of_some (sql : List Char) (e : Nat)
    (h : indexFunc (sql.dropWhile unicodeIsSpace) unicodeIsSpace = some e) :
    IsDML sql =
      (equalFold ((sql.dropWhile unicodeIsSpace).take e) ("insert".toList) ||
        equalFold ((sql.dropWhile unicodeIsSpace).take e) ("update".toList) ||
        equalFold ((sql.dropWhile unicodeIsSpace).take e) ("delete".toList)) := by
  simp only [IsDML]
  rw [h]

theorem occursIn_append_ext (p s t : List Char) (h : OccursIn p s) :
    OccursIn p (s ++ t) := by
  obtain ⟨a, b, rfl⟩ := h
  exact ⟨a, b ++ t, by simp [List.append_assoc]⟩

/-! ## Claim theorems -/

/-- C4: `IsDML(s)` is true if and only if, after skipping leading
whitespace, the first whitespace-delimited token of `s`
case-insensitively equals INSERT, UPDATE or DELETE and is actually
followed by a whitespace delimiter; it returns false for empty input,
all-whitespace input, and any input that is a single token with no
whitespace after leading-whitespace trimming. -/
theorem isDML_first_token_spec (sql : List Char) :
    (IsDML sql = true ↔
      ∃ w c r, sql.dropWhile unicodeIsSpace = w ++ c :: r ∧
        (∀ x ∈ w, unicodeIsSpace x = false) ∧ unicodeIsSpace c = true ∧
        (equalFold w ("insert".toList) = true ∨ equalFold w ("update".toList) = true ∨
          equalFold w ("delete".toList) = true)) ∧
    ((∀ x ∈ sql, unicodeIsSpace x = true) → IsDML sql = false) ∧
    ((∀ x ∈ sql.dropWhile unicodeIsSpace, unicodeIsSpace x = false) → IsDML sql = false) := by
  refine ⟨?_, ?_, ?_⟩
  · cases hidx : indexFunc (sql.dropWhile unicodeIsSpace) unicodeIsSpace with
    | none =>
      rw [isDML_eq_false_of_none sql hidx]
      constructor
      · intro h; exact absurd h (by decide)
      · rintro ⟨w, c, r, hl, _, hc, _⟩
        have hcm := (indexFunc_eq_none_iff _ _).mp hidx c
          (by rw [hl]; exact List.mem_append_right _ (by simp))
        rw [hc] at hcm
        exact absurd hcm (by decide)
    | some e =>
      rw [isDML_eq_of_some sql e hidx]
      obtain ⟨w, c, r, hl, hlen, hw, hc⟩ := (indexFunc_eq_some_iff _ _ e).mp hidx
      have htake : (sql.dropWhile unicodeIsSpace).take e = w := by
        rw [hl, ← hlen, List.take_left' rfl]
      rw [htake]
      simp only [Bool.or_eq_true]
      constructor
      · intro hor
        exact ⟨w, c, r, hl, hw, hc, by tauto⟩
      · rintro ⟨w', c', r', hl', hw', hc', hor'⟩
        -- the decomposition is unique: w' = w
        have hidx' : indexFunc (sql.dropWhile unicodeIsSpace) unicodeIsSpace = some w'.length :=
          (indexFunc_eq_some_iff _ _ _).mpr ⟨w', c', r', hl', rfl, hw', hc'⟩
        rw [hidx] at hidx'
        injection hidx' with he
        have htake' : (sql.dropWhile unicodeIsSpace).take e = w' := by
          rw [hl', he, List.take_left' rfl]
        rw [htake] at htake'
        subst htake'
        tauto
  · intro h
    refine isDML_eq_false_of_none sql ?_
    rw [dropWhile_eq_nil_of_all sql unicodeIsSpace h]
    rfl
  · intro h
    exact isDML_eq_false_of_none sql ((indexFunc_eq_none_iff _ _).mpr h)

/-- C4 witness: concrete instances of the characterization. -/
theorem isDML_first_token_spec_witness :
    IsDML ("insert into t".toList) = true ∧ IsDML ("   ".toList) = false :=
  ⟨(isDML_first_token_spec ("insert into t".toList)).1.mpr
      ⟨"insert".toList, ' ', "into t".toList, by decide, by decide, by decide,
        Or.inl (by decide)⟩,
    (isDML_first_token_spec ("   ".toList)).2.1 (by decide)⟩

/-- C5: for every statement with `IsDML` false and every identifier
list, `AnnotateIfDML` returns the statement unchanged (and the counter
state untouched). -/
theorem annotateIfDML_nonDML_identity (sql : List Char) (ids : List (List Nat))
    (st : AnnotationState) (h : IsDML sql = false) :
    AnnotateIfDML sql ids st = (sql, st) := by
  unfold AnnotateIfDML
  simp [h]

/-- C5 witness. -/
theorem annotateIfDML_nonDML_identity_witness :
    AnnotateIfDML ("select 1".toList) [[1]] ⟨0⟩ = ("select 1".toList, ⟨0⟩) :=
  annotateIfDML_nonDML_identity ("select 1".toList) [[1]] ⟨0⟩ (by decide)

/-- C3 counterexample: the claim asserts the unfriendly sentinel is
appended with one leading space, but `AnnotateIfDML` appends the
constant directly (`sql + filteredReplicationUnfriendlyAnnotation`,
with a constant that starts with `/*`), so no space separates the
statement from the sentinel. -/
theorem annotateIfDML_no_leading_space_counterexample :
    (AnnotateIfDML ("update t set x=1".toList) [] ⟨0⟩).1 ≠
      "update t set x=1".toList ++ ' ' :: filteredReplicationUnfriendlyAnnotation := by
  decide

/-- C3 amended: for every DML statement and identifier list of length
other than one, `AnnotateIfDML` returns the statement with the exact
literal unfriendly sentinel appended directly, with no separator. -/
theorem annotateIfDML_unfriendly_marker (sql : List Char) (ids : List (List Nat))
    (st : AnnotationState) (hdml : IsDML sql = true) (hn : ids.length ≠ 1) :
    (AnnotateIfDML sql ids st).1 = sql ++ filteredReplicationUnfriendlyAnnotation := by
  unfold AnnotateIfDML
  simp [hdml, hn]

/-- C3 witness. -/
theorem annotateIfDML_unfriendly_marker_witness :
    (AnnotateIfDML ("update t set x=1".toList) [] ⟨0⟩).1 =
      "update t set x=1".toList ++ filteredReplicationUnfriendlyAnnotation :=
  annotateIfDML_unfriendly_marker ("update t set x=1".toList) [] ⟨0⟩ (by decide) (by decide)

/-- C8: the process-wide replication-unfriendly counter grows by exactly
one per `AnnotateIfDML` call on the unfriendly path (DML with an
identifier count other than one) and is unchanged on every other path;
`AddKeyspaceID`, `IsDML`, `ExtractKeySpaceID` and `extractStringBetween`
are pure functions in this embedding (they take no state), so they
cannot touch the counter, and `ExtractKeySpaceID` performs no logging. -/
theorem annotateIfDML_counter_delta (sql : List Char) (ids : List (List Nat))
    (st : AnnotationState) :
    ((AnnotateIfDML sql ids st).2).filteredReplicationUnfriendlyStatementsCount =
      st.filteredReplicationUnfriendlyStatementsCount +
        (if IsDML sql = true ∧ ids.length ≠ 1 then 1 else 0) := by
  unfold AnnotateIfDML
  by_cases hd : IsDML sql = true
  · by_cases hn : ids.length = 1
    · simp [hd, hn]
    · simp [hd, hn]
  · have hd' : IsDML sql = false := Bool.eq_false_iff.mpr hd
    simp [hd']

/-- C6: `AddKeyspaceID` produces statement, one space, the keyspace
marker with the lowercase hexadecimal encoding of the identifier, and
the trailing comments verbatim with no separator; the hex encoding uses
only the characters `0123456789abcdef`, and decoding it recovers the
identifier bytes (no validation is performed on the identifier). -/
theorem addKeyspaceID_format (sql : List Char) (id : List Nat) (tc : List Char) :
    AddKeyspaceID sql id tc
        = sql ++ ' ' :: (keyspaceIDDelimiter ++ (hexEncode id ++ (" */".toList ++ tc))) ∧
      (∀ c ∈ hexEncode id, c ∈ hexDigits) ∧
      ((∀ b ∈ id, b < 256) → hexDecode (hexEncode id) = Except.ok id) :=
  ⟨addKeyspaceID_shape sql id tc, hexEncode_subset_hexDigits id, hexDecode_hexEncode id⟩

/-- C6 witness. -/
theorem addKeyspaceID_format_witness :
    hexDecode (hexEncode [0, 255]) = Except.ok [0, 255] :=
  (addKeyspaceID_format [] [0, 255] []).2.2 (by decide)

/-- C2: `ExtractKeySpaceID` follows the decision table on the presence
of the keyspace-id delimiter and the unfriendly sentinel: both present
gives the conflicting-annotations parse error; only the delimiter
present hex-decodes the captured text, giving the bytes with nil error
on success and a parse error wrapping the decode failure otherwise;
only the sentinel present gives the replication-unfriendly error;
neither gives the no-annotation parse error.  The result is always
either decoded bytes with a nil error, or nil bytes with exactly one
error whose kind is one of the two defined kinds. -/
theorem extractKeySpaceID_decision_table (sql : List Char) :
    (OccursIn keyspaceIDDelimiter sql →
      OccursIn filteredReplicationUnfriendlyAnnotation sql →
      ExtractKeySpaceID sql =
        (none, some ⟨ExtractKeySpaceIDParseError, conflictingAnnotationsMessage sql⟩)) ∧
    (OccursIn keyspaceIDDelimiter sql →
      ¬ OccursIn filteredReplicationUnfriendlyAnnotation sql →
      ((∃ bs, hexDecode (extractStringBetween sql keyspaceIDDelimiter (" ".toList)).1
            = Except.ok bs ∧ ExtractKeySpaceID sql = (some bs, none)) ∨
       (∃ e, hexDecode (extractStringBetween sql keyspaceIDDelimiter (" ".toList)).1
            = Except.error e ∧ ExtractKeySpaceID sql =
              (none, some ⟨ExtractKeySpaceIDParseError,
                parsingKeyspaceIDValueMessage sql e⟩)))) ∧
    (¬ OccursIn keyspaceIDDelimiter sql →
      OccursIn filteredReplicationUnfriendlyAnnotation sql →
      ExtractKeySpaceID sql =
        (none, some ⟨ExtractKeySpaceIDReplicationUnfriendlyError,
          unfriendlyStatementMessage sql⟩)) ∧
    (¬ OccursIn keyspaceIDDelimiter sql →
      ¬ OccursIn filteredReplicationUnfriendlyAnnotation sql →
      ExtractKeySpaceID sql =
        (none, some ⟨ExtractKeySpaceIDParseError, noAnnotationFoundMessage sql⟩)) ∧
    ((∃ bs, ExtractKeySpaceID sql = (some bs, none)) ∨
     (∃ e, ExtractKeySpaceID sql = (none, some e) ∧
        (e.Kind = ExtractKeySpaceIDParseError ∨
          e.Kind = ExtractKeySpaceIDReplicationUnfriendlyError))) := by
  have hKt : OccursIn keyspaceIDDelimiter sql →
      (extractStringBetween sql keyspaceIDDelimiter (" ".toList)).2 = true := by
    intro h
    rw [extractStringBetween_found_iff]
    exact (goIndex_isSome_iff_occursIn _ _).mpr h
  have hKf : ¬ OccursIn keyspaceIDDelimiter sql →
      (extractStringBetween sql keyspaceIDDelimiter (" ".toList)).2 = false := by
    intro h
    rw [extractStringBetween_found_iff]
    exact Bool.eq_false_iff.mpr (fun ht => h ((goIndex_isSome_iff_occursIn _ _).mp ht))
  have hUt : OccursIn filteredReplicationUnfriendlyAnnotation sql →
      (goIndex sql filteredReplicationUnfriendlyAnnotation).isSome = true :=
    (goIndex_isSome_iff_occursIn _ _).mpr
  have hUf : ¬ OccursIn filteredReplicationUnfriendlyAnnotation sql →
      goIndex sql filteredReplicationUnfriendlyAnnotation = none :=
    goIndex_eq_none_of_not_occursIn
  refine ⟨?_, ?_, ?_, ?_, ?_⟩
  · intro hk hu
    exact extractKeySpaceID_conflict (hKt hk) (hUt hu)
  · intro hk hu
    have hd := extractKeySpaceID_decode (hKt hk) (hUf hu)
    cases hh : hexDecode (extractStringBetween sql keyspaceIDDelimiter (" ".toList)).1 with
    | ok bs => exact Or.inl ⟨bs, rfl, by rw [hd, hh]⟩
    | error e => exact Or.inr ⟨e, rfl, by rw [hd, hh]⟩
  · intro hk hu
    exact extractKeySpaceID_unfriendly_case (hKf hk) (hUt hu)
  · intro hk hu
    exact extractKeySpaceID_no_marker (hKf hk) (hUf hu)
  · by_cases hk : OccursIn keyspaceIDDelimiter sql
    · by_cases hu : OccursIn filteredReplicationUnfriendlyAnnotation sql
      · exact Or.inr ⟨_, extractKeySpaceID_conflict (hKt hk) (hUt hu), Or.inl rfl⟩
      · have hd := extractKeySpaceID_decode (hKt hk) (hUf hu)
        cases hh : hexDecode (extractStringBetween sql keyspaceIDDelimiter (" ".toList)).1 with
        | ok bs => exact Or.inl ⟨bs, by rw [hd, hh]⟩
        | error e => exact Or.inr ⟨_, by rw [hd, hh], Or.inl rfl⟩
    · by_cases hu : OccursIn filteredReplicationUnfriendlyAnnotation sql
      · exact Or.inr ⟨_, extractKeySpaceID_unfriendly_case (hKf hk) (hUt hu), Or.inr rfl⟩
      · exact Or.inr ⟨_, extractKeySpaceID_no_marker (hKf hk) (hUf hu), Or.inl rfl⟩

/-- C2 witness: a statement carrying both markers hits the
conflicting-annotations row of the decision table. -/
theorem extractKeySpaceID_decision_table_witness :
    ExtractKeySpaceID
        ("UPDATE t /* vtgate:: keyspace_id:ab */ /* vtgate:: filtered_replication_unfriendly */".toList)
      = (none, some ⟨ExtractKeySpaceIDParseError, conflictingAnnotationsMessage
          ("UPDATE t /* vtgate:: keyspace_id:ab */ /* vtgate:: filtered_replication_unfriendly */".toList)⟩) :=
  (extractKeySpaceID_decision_table _).1
    ⟨"UPDATE t ".toList,
      "ab */ /* vtgate:: filtered_replication_unfriendly */".toList, by decide⟩
    ⟨"UPDATE t /* vtgate:: keyspace_id:ab */ ".toList, [], by decide⟩

/-- C9: every error value returned by `ExtractKeySpaceID` has `Kind`
equal to `ExtractKeySpaceIDParseError` or
`ExtractKeySpaceIDReplicationUnfriendlyError`, so the defensive
`log.Fatalf` default branch of the `Error` method (modelled as `none`)
is unreachable on every error this module produces. -/
theorem extractKeySpaceID_error_kinds (sql : List Char) (e : ExtractKeySpaceIDError)
    (h : (ExtractKeySpaceID sql).2 = some e) :
    (e.Kind = ExtractKeySpaceIDParseError ∨
        e.Kind = ExtractKeySpaceIDReplicationUnfriendlyError) ∧
      (ExtractKeySpaceIDError.errorMessage e).isSome = true := by
  have hks : e.Kind = ExtractKeySpaceIDParseError ∨
      e.Kind = ExtractKeySpaceIDReplicationUnfriendlyError := by
    rcases (extractKeySpaceID_decision_table sql).2.2.2.2 with ⟨bs, hbs⟩ | ⟨e', he', hk⟩
    · rw [hbs] at h
      simp at h
    · rw [he'] at h
      have h' : some e' = some e := h
      injection h' with h'
      subst h'
      exact hk
  refine ⟨hks, ?_⟩
  unfold ExtractKeySpaceIDError.errorMessage
  rcases hks with hk | hk
  · rw [if_pos hk]
    rfl
  · rw [hk]
    rw [if_neg (by decide), if_pos rfl]
    rfl

/-- C9 witness. -/
theorem extractKeySpaceID_error_kinds_witness :
    ((ExtractKeySpaceIDError.mk ExtractKeySpaceIDParseError
        (noAnnotationFoundMessage ("x".toList))).Kind = ExtractKeySpaceIDParseError ∨
      (ExtractKeySpaceIDError.mk ExtractKeySpaceIDParseError
        (noAnnotationFoundMessage ("x".toList))).Kind =
          ExtractKeySpaceIDReplicationUnfriendlyError) ∧
    (ExtractKeySpaceIDError.errorMessage
      (ExtractKeySpaceIDError.mk ExtractKeySpaceIDParseError
        (noAnnotationFoundMessage ("x".toList)))).isSome = true :=
  extractKeySpaceID_error_kinds ("x".toList)
    ⟨ExtractKeySpaceIDParseError, noAnnotationFoundMessage ("x".toList)⟩ (by decide)

/-- C7: the found flag of the capture is true exactly when the
keyspace-id delimiter occurs in the input, and at the leftmost
occurrence the captured value starts immediately after the delimiter
and extends up to but not including the next space character, or to the
end of the string when no space follows. -/
theorem extractStringBetween_capture_spec (sql : List Char) :
    ((extractStringBetween sql keyspaceIDDelimiter (" ".toList)).2 = true ↔
        OccursIn keyspaceIDDelimiter sql) ∧
      (∀ a b, sql = a ++ keyspaceIDDelimiter ++ b →
        (∀ a' b', sql = a' ++ keyspaceIDDelimiter ++ b' → a.length ≤ a'.length) →
        ((∀ c ∈ b, c ≠ ' ') →
            extractStringBetween sql keyspaceIDDelimiter (" ".toList) = (b, true)) ∧
          (∀ b1 b2, b = b1 ++ ' ' :: b2 → (∀ c ∈ b1, c ≠ ' ') →
            extractStringBetween sql keyspaceIDDelimiter (" ".toList) = (b1, true))) := by
  constructor
  · rw [extractStringBetween_found_iff]
    exact goIndex_isSome_iff_occursIn sql keyspaceIDDelimiter
  · intro a b hab hmin
    have hidx : goIndex sql keyspaceIDDelimiter = some a.length := by
      rw [goIndex_eq_some_iff]
      constructor
      · rw [hab, List.append_assoc, List.drop_left]
        exact (isPrefixOf_iff_exists _ _).mpr ⟨b, rfl⟩
      · intro i hi
        apply Bool.eq_false_iff.mpr
        intro htrue
        obtain ⟨u, hu⟩ := (isPrefixOf_iff_exists _ _).mp htrue
        have hocc : sql = sql.take i ++ keyspaceIDDelimiter ++ u := by
          conv_lhs => rw [← List.take_append_drop i sql]
          rw [hu, List.append_assoc]
        have hmin' := hmin (sql.take i) u hocc
        have hal : a.length ≤ sql.length := by
          rw [hab]
          simp only [List.length_append]
          omega
        have htl : (sql.take i).length = i := by
          rw [List.length_take]
          omega
        omega
    have hdropped : sql.drop (a.length + keyspaceIDDelimiter.length) = b := by
      rw [hab, List.drop_left' (by simp)]
    refine ⟨?_, ?_⟩
    · intro hnb
      have h2 : goIndex (sql.drop (a.length + keyspaceIDDelimiter.length)) (" ".toList)
          = none := by
        rw [hdropped]
        exact goIndex_single_none b ' ' hnb
      rw [extractStringBetween_some_none hidx h2, hdropped]
    · intro b1 b2 hb hnb1
      have h2 : goIndex (sql.drop (a.length + keyspaceIDDelimiter.length)) (" ".toList)
          = some b1.length := by
        rw [hdropped, hb]
        exact goIndex_single_some b1 b2 ' ' hnb1
      rw [extractStringBetween_some_some hidx h2, hdropped, hb, List.take_left' rfl]

/-- C7 witness: the delimiter at position zero with capture up to the
next space. -/
theorem extractStringBetween_capture_spec_witness :
    extractStringBetween (keyspaceIDDelimiter ++ "ab */".toList) keyspaceIDDelimiter
        (" ".toList) = ("ab".toList, true) :=
  ((extractStringBetween_capture_spec (keyspaceIDDelimiter ++ "ab */".toList)).2
      [] ("ab */".toList) (by simp) (fun _ _ _ => Nat.zero_le _)).2
    ("ab".toList) ("*/".toList) (by decide) (by decide)

/-- C10: `AddKeyspaceID` appends the keyspace marker unconditionally,
so annotating any statement that already contains the unfriendly
sentinel produces the both-markers-present state, and extraction then
fails with the conflicting-annotations parse error. -/
theorem addKeyspaceID_conflict_production (sql : List Char) (id : List Nat)
    (h : OccursIn filteredReplicationUnfriendlyAnnotation sql) :
    ExtractKeySpaceID (AddKeyspaceID sql id []) =
      (none, some ⟨ExtractKeySpaceIDParseError,
        conflictingAnnotationsMessage (AddKeyspaceID sql id [])⟩) := by
  have hk : OccursIn keyspaceIDDelimiter (AddKeyspaceID sql id []) := by
    rw [addKeyspaceID_shape_nil]
    exact ⟨sql ++ [' '], hexEncode id ++ " */".toList, by simp⟩
  have hform : AddKeyspaceID sql id [] =
      sql ++ (" /* vtgate:: keyspace_id:".toList ++
        (hexEncode id ++ (" */".toList ++ []))) := by
    unfold AddKeyspaceID
    simp [List.append_assoc]
  have hu : OccursIn filteredReplicationUnfriendlyAnnotation (AddKeyspaceID sql id []) := by
    rw [hform]
    exact occursIn_append_ext _ sql _ h
  exact extractKeySpaceID_conflict
    (by rw [extractStringBetween_found_iff]
        exact (goIndex_isSome_iff_occursIn _ _).mpr hk)
    ((goIndex_isSome_iff_occursIn _ _).mpr hu)

/-- C10 witness: annotating the sentinel itself. -/
theorem addKeyspaceID_conflict_production_witness :
    ExtractKeySpaceID (AddKeyspaceID filteredReplicationUnfriendlyAnnotation [171] []) =
      (none, some ⟨ExtractKeySpaceIDParseError, conflictingAnnotationsMessage
        (AddKeyspaceID filteredReplicationUnfriendlyAnnotation [171] [])⟩) :=
  addKeyspaceID_conflict_production filteredReplicationUnfriendlyAnnotation [171]
    ⟨[], [], by simp⟩

/-- C1 counterexample: the round-trip claim quantifies over every
statement, but a statement that already contains a keyspace-id
delimiter breaks it: the parser finds the leftmost delimiter, captures
`zz`, and fails with a hex-decode parse error instead of returning the
identifier that was added. -/
theorem roundTrip_counterexample :
    ExtractKeySpaceID (AddKeyspaceID ("/* vtgate:: keyspace_id:zz */".toList) [171] [])
      ≠ (some [171], none) := by
  decide

/-- C1 amended: for every identifier whose entries are bytes and every
statement that contains neither the keyspace-id delimiter nor the
unfriendly sentinel, `ExtractKeySpaceID` after `AddKeyspaceID` (with
empty trailing comments) recovers exactly the original identifier bytes
with a nil error, including the empty identifier; and for DML
statements the same holds through `AnnotateIfDML` with a one-element
identifier list. -/
theorem addKeyspaceID_extract_roundTrip (s : List Char) (id : List Nat)
    (hid : ∀ b ∈ id, b < 256)
    (h1 : ¬ OccursIn keyspaceIDDelimiter s)
    (h2 : ¬ OccursIn filteredReplicationUnfriendlyAnnotation s) :
    ExtractKeySpaceID (AddKeyspaceID s id []) = (some id, none) ∧
      ∀ st, IsDML s = true →
        ExtractKeySpaceID ((AnnotateIfDML s [id] st).1) = (some id, none) := by
  have hmain := extractKeySpaceID_addKeyspaceID s id hid h1 h2
  refine ⟨hmain, ?_⟩
  intro st hdml
  have hann : (AnnotateIfDML s [id] st).1 = AddKeyspaceID s id [] := by
    unfold AnnotateIfDML
    simp [hdml]
  rw [hann]
  exact hmain

/-- C1 witness: a concrete DML statement and a two-byte identifier. -/
theorem addKeyspaceID_extract_roundTrip_witness :
    ExtractKeySpaceID (AddKeyspaceID ("update t set x=1".toList) [171, 1] []) =
      (some [171, 1], none) :=
  (addKeyspaceID_extract_roundTrip ("update t set x=1".toList) [171, 1] (by decide)
    (not_occursIn_of_goIndex_none (by decide))
    (not_occursIn_of_goIndex_none (by decide))).1
